import Mathlib

/-
Shallow embedding of the Algorand voting contract in src/contract.py
(class Voting, methods create_vote / vote / opt_in).

Modelling choices:
- AVM UInt64 values are modelled as Nat.  AVM arithmetic aborts on
  overflow instead of wrapping, and the only arithmetic here is tally
  increment and order comparisons, so no modular reduction arises.
- Global fields of the contract map to fields of the State structure.
- LocalState[UInt64] maps to an association list from account ids (Nat)
  to the chosen option; a present key is the "hasVoted" flag of the spec.
- The set of accounts opted in to the application is a list of account
  ids.  Reading local state of a non-opted-in account fails at the AVM
  level, which the embedding surfaces as the notOptedIn error.
- Each abimethod call is all-or-nothing: a failed assert (or the
  low-level op.exit(0)) discards every effect of the call, so the
  embedding returns Except: ok carries the full successor state, error
  carries no state at all.
- Global.latest_timestamp and Txn.sender are inputs supplied per call.
-/

namespace Voting

/-- Errors of the contract, one per assert in src/contract.py, plus the
ledger-level notOptedIn failure and the op.exit(0) branch of vote. -/
inductive VoteError where
  | alreadyCreated
  | invalidOptionCount
  | invalidDeadline
  | votingEnded
  | votingNotStarted
  | invalidOption
  | alreadyVoted
  | notOptedIn
  | internalExit
deriving DecidableEq, Repr

/-- Persistent state of the deployed contract: the global fields declared
in class Voting, the set of opted-in accounts, and the per-account local
state (account id, chosen option). -/
structure State where
  title : String
  description : String
  noOfOptions : Nat
  option1 : String
  option2 : String
  option3 : String
  option4 : String
  option1Votes : Nat
  option2Votes : Nat
  option3Votes : Nat
  option4Votes : Nat
  startsAt : Nat
  endsAt : Nat
  vote_status : Nat
  opted : List Nat
  localState : List (Nat × Nat)
deriving DecidableEq, Repr

/-- Initial state set by Voting.__init__: every field empty or zero. -/
def initialState : State :=
  { title := "", description := "", noOfOptions := 0,
    option1 := "", option2 := "", option3 := "", option4 := "",
    option1Votes := 0, option2Votes := 0, option3Votes := 0, option4Votes := 0,
    startsAt := 0, endsAt := 0, vote_status := 0,
    opted := [], localState := [] }

/-- Lookup of an account key in the local-state association list,
mirroring LocalState.maybe: some v when the key is present. -/
def lookupVote : List (Nat × Nat) → Nat → Option Nat
  | [], _ => none
  | (a, v) :: rest, x => if x = a then some v else lookupVote rest x

/-- Voting.create_vote: asserts vote_status == 0, 2 <= noOfOptions <= 4,
latest_timestamp < endsAt (in that order), then stores every supplied
field, zeroes the four tallies, sets startsAt to the current time and
vote_status to 1. -/
def create_vote (s : State) (title description : String) (noOfOptions : Nat)
    (option1 option2 option3 option4 : String) (endsAt now : Nat) :
    Except VoteError State :=
  if s.vote_status = 0 then
    if 2 ≤ noOfOptions ∧ noOfOptions ≤ 4 then
      if now < endsAt then
        Except.ok
          { s with
            title := title, description := description,
            noOfOptions := noOfOptions,
            option1 := option1, option2 := option2,
            option3 := option3, option4 := option4,
            option1Votes := 0, option2Votes := 0,
            option3Votes := 0, option4Votes := 0,
            startsAt := now, endsAt := endsAt, vote_status := 1 }
      else Except.error VoteError.invalidDeadline
    else Except.error VoteError.invalidOptionCount
  else Except.error VoteError.alreadyCreated

/-- Voting.vote: asserts latest_timestamp < endsAt, latest_timestamp >
startsAt, 1 <= option <= noOfOptions (in that order); then
localState.maybe(sender), which fails at the ledger level when the
sender never opted in, and asserts the key is absent; then records the
sender's choice and increments the tally matched by the if/elif chain,
whose final else is the unconditional op.exit(0) that rejects the call. -/
def vote (s : State) (sender now option : Nat) : Except VoteError State :=
  if now < s.endsAt then
    if s.startsAt < now then
      if 1 ≤ option ∧ option ≤ s.noOfOptions then
        if sender ∈ s.opted then
          if (lookupVote s.localState sender).isSome then
            Except.error VoteError.alreadyVoted
          else
            let s' := { s with localState := (sender, option) :: s.localState }
            if option = 1 then
              Except.ok { s' with option1Votes := s'.option1Votes + 1 }
            else if option = 2 then
              Except.ok { s' with option2Votes := s'.option2Votes + 1 }
            else if option = 3 then
              Except.ok { s' with option3Votes := s'.option3Votes + 1 }
            else if option = 4 then
              Except.ok { s' with option4Votes := s'.option4Votes + 1 }
            else Except.error VoteError.internalExit
        else Except.error VoteError.notOptedIn
      else Except.error VoteError.invalidOption
    else Except.error VoteError.votingNotStarted
  else Except.error VoteError.votingEnded

/-- Modelled from the spec: the opt_in method body in src/contract.py is
empty (pass); the allocation of the caller's local-state slot is done by
the ledger's OptIn action, which is not part of src/.  The spec requires
allocate-if-absent semantics: the slot is created if missing and nothing
happens otherwise. -/
def opt_in (s : State) (sender : Nat) : State :=
  if sender ∈ s.opted then s else { s with opted := sender :: s.opted }

/-- One external call to the contract, with the per-call context
(current timestamp, transaction sender) supplied by the ledger. -/
inductive Call where
  | create (title description : String) (noOfOptions : Nat)
      (option1 option2 option3 option4 : String) (endsAt now : Nat)
  | vote (sender option now : Nat)
  | optIn (sender : Nat)

/-- Ledger-level execution of one call: a successful call commits the new
state, a failed call leaves the state exactly as it was and reports the
error. -/
def applyCall (s : State) (c : Call) : State × Option VoteError :=
  match c with
  | Call.create t d n o1 o2 o3 o4 e now =>
    match create_vote s t d n o1 o2 o3 o4 e now with
    | Except.ok s' => (s', none)
    | Except.error err => (s, some err)
  | Call.vote sender option now =>
    match vote s sender now option with
    | Except.ok s' => (s', none)
    | Except.error err => (s, some err)
  | Call.optIn sender => (opt_in s sender, none)

/-- States reachable from a given state by any sequence of calls
(failed calls included; they change nothing). -/
inductive ReachableFrom (s : State) : State → Prop
  | refl : ReachableFrom s s
  | tail {t : State} (c : Call) : ReachableFrom s t → ReachableFrom s (applyCall t c).1

/-- States reachable from deployment. -/
def Reachable (s : State) : Prop := ReachableFrom initialState s

/-- Sum of the four tallies. -/
def sumTallies (s : State) : Nat :=
  s.option1Votes + s.option2Votes + s.option3Votes + s.option4Votes

/-- Number of accounts whose local-state key is present, i.e. whose
VoterRecord has hasVoted == true. -/
def hasVotedCount (s : State) : Nat :=
  (s.localState.map Prod.fst).dedup.length

/-- Tally at a 1-based option position. -/
def tally (s : State) (i : Nat) : Nat :=
  if i = 1 then s.option1Votes
  else if i = 2 then s.option2Votes
  else if i = 3 then s.option3Votes
  else if i = 4 then s.option4Votes
  else 0

/-- The state reached by a successful vote of a given option, before the
tally increment: the sender's choice is recorded in local state. -/
def recordVote (s : State) (sender option : Nat) : State :=
  { s with localState := (sender, option) :: s.localState }

/-- Inductive invariant of the contract, combining the spec's I1, I2,
I4, I5 together with the facts that make them inductive: while the poll
is not created, endsAt is 0 and nothing has been stored; once created,
the window and the option bound hold; and local-state keys stay
distinct with the tallies counting them. -/
def StateInv (s : State) : Prop :=
  (s.vote_status = 0 ∨ s.vote_status = 1) ∧
  (s.vote_status = 0 → s.endsAt = 0 ∧ s.noOfOptions = 0 ∧ s.localState = []) ∧
  (s.vote_status = 1 → s.startsAt < s.endsAt ∧ 2 ≤ s.noOfOptions ∧ s.noOfOptions ≤ 4) ∧
  (s.localState.map Prod.fst).Nodup ∧
  sumTallies s = s.localState.length

/-- Concrete call used in witnesses: create a two-option poll at time 0
closing at time 100. -/
def cDemoCreate : Call := Call.create "T" "D" 2 "A" "B" "" "" 100 0

/-- State after the demo creation. -/
def demoS1 : State := (applyCall initialState cDemoCreate).1

/-- State after account 7 opts in. -/
def demoS2 : State := (applyCall demoS1 (Call.optIn 7)).1

/-- State after account 7 votes option 1 at time 50. -/
def demoS3 : State := (applyCall demoS2 (Call.vote 7 1 50)).1

lemma demoS1_reachable : Reachable demoS1 :=
  ReachableFrom.tail cDemoCreate ReachableFrom.refl

lemma demoS2_reachable : Reachable demoS2 :=
  ReachableFrom.tail (Call.optIn 7) demoS1_reachable

lemma demoS3_reachable : Reachable demoS3 :=
  ReachableFrom.tail (Call.vote 7 1 50) demoS2_reachable

lemma not_isSome_eq_none {o : Option Nat} (h : ¬ o.isSome = true) : o = none := by
  cases o with
  | none => rfl
  | some v => simp at h

lemma lookupVote_none_iff (l : List (Nat × Nat)) (a : Nat) :
    lookupVote l a = none ↔ a ∉ l.map Prod.fst := by
  induction l with
  | nil => simp [lookupVote]
  | cons hd tl ih =>
    obtain ⟨x, v⟩ := hd
    by_cases hax : a = x
    · subst hax
      simp [lookupVote]
    · simp [lookupVote, hax, ih]

lemma lookupVote_cons_self (l : List (Nat × Nat)) (a v : Nat) :
    lookupVote ((a, v) :: l) a = some v := by
  simp [lookupVote]

lemma lookupVote_cons_ne (l : List (Nat × Nat)) (a v b : Nat) (h : b ≠ a) :
    lookupVote ((a, v) :: l) b = lookupVote l b := by
  simp [lookupVote, h]

/-- Inversion of a successful create_vote call: the preconditions held
and the result is the fully updated state. -/
lemma create_vote_ok {s : State} {t d : String} {n : Nat}
    {o1 o2 o3 o4 : String} {e now : Nat} {s' : State}
    (h : create_vote s t d n o1 o2 o3 o4 e now = Except.ok s') :
    s.vote_status = 0 ∧ 2 ≤ n ∧ n ≤ 4 ∧ now < e ∧
    s' = { s with
           title := t, description := d, noOfOptions := n,
           option1 := o1, option2 := o2, option3 := o3, option4 := o4,
           option1Votes := 0, option2Votes := 0,
           option3Votes := 0, option4Votes := 0,
           startsAt := now, endsAt := e, vote_status := 1 } := by
  unfold create_vote at h
  split_ifs at h with h1 h2 h3
  · exact ⟨h1, h2.1, h2.2, h3, (Except.ok.inj h).symm⟩

/-- Inversion of a successful vote call: all preconditions held, the
option is one of 1..4, and the result records the choice and bumps the
matching tally. -/
lemma vote_ok {s : State} {sender now option : Nat} {s' : State}
    (h : vote s sender now option = Except.ok s') :
    now < s.endsAt ∧ s.startsAt < now ∧ 1 ≤ option ∧ option ≤ s.noOfOptions ∧
    sender ∈ s.opted ∧ lookupVote s.localState sender = none ∧
    ((option = 1 ∧ s' = { recordVote s sender option with
        option1Votes := s.option1Votes + 1 }) ∨
     (option = 2 ∧ s' = { recordVote s sender option with
        option2Votes := s.option2Votes + 1 }) ∨
     (option = 3 ∧ s' = { recordVote s sender option with
        option3Votes := s.option3Votes + 1 }) ∨
     (option = 4 ∧ s' = { recordVote s sender option with
        option4Votes := s.option4Votes + 1 })) := by
  unfold vote at h
  split_ifs at h with h1 h2 h3 h4 h5 h6 h7 h8 h9
  · exact ⟨h1, h2, h3.1, h3.2, h4, not_isSome_eq_none h5,
      Or.inl ⟨h6, (Except.ok.inj h).symm⟩⟩
  · exact ⟨h1, h2, h3.1, h3.2, h4, not_isSome_eq_none h5,
      Or.inr (Or.inl ⟨h7, (Except.ok.inj h).symm⟩)⟩
  · exact ⟨h1, h2, h3.1, h3.2, h4, not_isSome_eq_none h5,
      Or.inr (Or.inr (Or.inl ⟨h8, (Except.ok.inj h).symm⟩))⟩
  · exact ⟨h1, h2, h3.1, h3.2, h4, not_isSome_eq_none h5,
      Or.inr (Or.inr (Or.inr ⟨h9, (Except.ok.inj h).symm⟩))⟩

lemma stateInv_initial : StateInv initialState := by
  refine ⟨Or.inl rfl, fun _ => ⟨rfl, rfl, rfl⟩, fun h => by simp [initialState] at h,
    ?_, rfl⟩
  simp [initialState]

lemma stateInv_applyCall (s : State) (c : Call) (h : StateInv s) :
    StateInv (applyCall s c).1 := by
  obtain ⟨hstat, h0, h1, hnd, hsum⟩ := h
  cases c with
  | create t d n o1 o2 o3 o4 e now =>
    cases hc : create_vote s t d n o1 o2 o3 o4 e now with
    | error err =>
      simp only [applyCall, hc]
      exact ⟨hstat, h0, h1, hnd, hsum⟩
    | ok s' =>
      simp only [applyCall, hc]
      obtain ⟨hs0, hn2, hn4, hne, rfl⟩ := create_vote_ok hc
      obtain ⟨_, _, hls⟩ := h0 hs0
      refine ⟨Or.inr rfl, by simp, fun _ => ⟨hne, hn2, hn4⟩, ?_, ?_⟩
      · simpa using hnd
      · simp [sumTallies, hls]
  | vote sender option now =>
    cases hc : vote s sender now option with
    | error err =>
      simp only [applyCall, hc]
      exact ⟨hstat, h0, h1, hnd, hsum⟩
    | ok s' =>
      simp only [applyCall, hc]
      obtain ⟨hend, hstart, hge1, hlen, hopt, hnone, hcases⟩ := vote_ok hc
      have hkey : sender ∉ s.localState.map Prod.fst :=
        (lookupVote_none_iff s.localState sender).mp hnone
      have hstat1 : s.vote_status = 1 := by
        rcases hstat with hz | ho
        · obtain ⟨he, _, _⟩ := h0 hz
          omega
        · exact ho
      rcases hcases with ⟨_, rfl⟩ | ⟨_, rfl⟩ | ⟨_, rfl⟩ | ⟨_, rfl⟩ <;>
      · refine ⟨Or.inr hstat1, ?_, ?_, ?_, ?_⟩
        · simp [recordVote, hstat1]
        · simpa [recordVote] using h1
        · simp [recordVote, List.nodup_cons]
          exact ⟨fun x hx => hkey (List.mem_map_of_mem Prod.fst hx), hnd⟩
        · simp [sumTallies, recordVote] at hsum ⊢
          omega
  | optIn sender =>
    simp only [applyCall, opt_in]
    split_ifs with hmem
    · exact ⟨hstat, h0, h1, hnd, hsum⟩
    · exact ⟨hstat, h0, h1, hnd, hsum⟩

lemma stateInv_reachableFrom {s s' : State} (h : ReachableFrom s s')
    (hs : StateInv s) : StateInv s' := by
  induction h with
  | refl => exact hs
  | tail c _ ih => exact stateInv_applyCall _ c ih

lemma stateInv_reachable {s : State} (h : Reachable s) : StateInv s :=
  stateInv_reachableFrom h stateInv_initial

lemma lookupVote_isSome_cons {l : List (Nat × Nat)} {a : Nat} (x v : Nat)
    (h : (lookupVote l a).isSome = true) :
    (lookupVote ((x, v) :: l) a).isSome = true := by
  by_cases hax : a = x
  · subst hax
    simp [lookupVote]
  · simpa [lookupVote, hax] using h

/-- Once the poll is active, no call changes vote_status, startsAt or
endsAt. -/
lemma applyCall_active (s : State) (c : Call) (h : s.vote_status = 1) :
    (applyCall s c).1.vote_status = 1 ∧
    (applyCall s c).1.startsAt = s.startsAt ∧
    (applyCall s c).1.endsAt = s.endsAt := by
  cases c with
  | create t d n o1 o2 o3 o4 e now =>
    cases hc : create_vote s t d n o1 o2 o3 o4 e now with
    | error err => simp [applyCall, hc, h]
    | ok s' =>
      have hs0 := (create_vote_ok hc).1
      omega
  | vote sender option now =>
    cases hc : vote s sender now option with
    | error err => simp [applyCall, hc, h]
    | ok s' =>
      simp only [applyCall, hc]
      obtain ⟨_, _, _, _, _, _, hcases⟩ := vote_ok hc
      rcases hcases with ⟨_, rfl⟩ | ⟨_, rfl⟩ | ⟨_, rfl⟩ | ⟨_, rfl⟩ <;>
        exact ⟨h, rfl, rfl⟩
  | optIn sender =>
    simp only [applyCall, opt_in]
    split_ifs <;> simp [h]

lemma reachableFrom_active {s s' : State} (h : ReachableFrom s s')
    (h1 : s.vote_status = 1) :
    s'.vote_status = 1 ∧ s'.startsAt = s.startsAt ∧ s'.endsAt = s.endsAt := by
  induction h with
  | refl => exact ⟨h1, rfl, rfl⟩
  | tail c _ ih =>
    obtain ⟨ha, hb, hc⟩ := applyCall_active _ c ih.1
    exact ⟨ha, hb.trans ih.2.1, hc.trans ih.2.2⟩

/-- A recorded vote is never erased by any later call. -/
lemma applyCall_voted (s : State) (c : Call) (a : Nat)
    (h : (lookupVote s.localState a).isSome = true) :
    (lookupVote (applyCall s c).1.localState a).isSome = true := by
  cases c with
  | create t d n o1 o2 o3 o4 e now =>
    cases hc : create_vote s t d n o1 o2 o3 o4 e now with
    | error err => simp only [applyCall, hc]; exact h
    | ok s' =>
      simp only [applyCall, hc]
      obtain ⟨_, _, _, _, rfl⟩ := create_vote_ok hc
      exact h
  | vote sender option now =>
    cases hc : vote s sender now option with
    | error err => simp only [applyCall, hc]; exact h
    | ok s' =>
      simp only [applyCall, hc]
      obtain ⟨_, _, _, _, _, _, hcases⟩ := vote_ok hc
      rcases hcases with ⟨_, rfl⟩ | ⟨_, rfl⟩ | ⟨_, rfl⟩ | ⟨_, rfl⟩ <;>
        exact lookupVote_isSome_cons sender option h
  | optIn sender =>
    simp only [applyCall, opt_in]
    split_ifs <;> exact h

lemma reachableFrom_voted {s s' : State} (h : ReachableFrom s s') (a : Nat)
    (hv : (lookupVote s.localState a).isSome = true) :
    (lookupVote s'.localState a).isSome = true := by
  induction h with
  | refl => exact hv
  | tail c _ ih => exact applyCall_voted _ c a ih

/-- An opted-in account stays opted in under any call. -/
lemma applyCall_opted (s : State) (c : Call) (a : Nat) (h : a ∈ s.opted) :
    a ∈ (applyCall s c).1.opted := by
  cases c with
  | create t d n o1 o2 o3 o4 e now =>
    cases hc : create_vote s t d n o1 o2 o3 o4 e now with
    | error err => simp only [applyCall, hc]; exact h
    | ok s' =>
      simp only [applyCall, hc]
      obtain ⟨_, _, _, _, rfl⟩ := create_vote_ok hc
      exact h
  | vote sender option now =>
    cases hc : vote s sender now option with
    | error err => simp only [applyCall, hc]; exact h
    | ok s' =>
      simp only [applyCall, hc]
      obtain ⟨_, _, _, _, _, _, hcases⟩ := vote_ok hc
      rcases hcases with ⟨_, rfl⟩ | ⟨_, rfl⟩ | ⟨_, rfl⟩ | ⟨_, rfl⟩ <;>
        exact h
  | optIn sender =>
    simp only [applyCall, opt_in]
    split_ifs with hmem
    · exact h
    · exact List.mem_cons_of_mem sender h

lemma reachableFrom_opted {s s' : State} (h : ReachableFrom s s') (a : Nat)
    (ha : a ∈ s.opted) : a ∈ s'.opted := by
  induction h with
  | refl => exact ha
  | tail c _ ih => exact applyCall_opted _ c a ih

/-- C1: in every reachable state, the sum of the four tallies equals the
number of accounts whose local-state key is present, i.e. whose
VoterRecord has hasVoted == true. -/
theorem tally_conservation (s : State) (h : Reachable s) :
    sumTallies s = hasVotedCount s := by
  obtain ⟨_, _, _, hnd, hsum⟩ := stateInv_reachable h
  unfold hasVotedCount
  rw [List.dedup_eq_self.mpr hnd, List.length_map]
  exact hsum

/-- Witness for C1 at the reachable state where account 7 has voted. -/
theorem tally_conservation_witness :
    sumTallies demoS3 = hasVotedCount demoS3 :=
  tally_conservation demoS3 demoS3_reachable

/-- C2: a successful create_vote happens only from the NotCreated state,
switches the status to Active, and from then on every create_vote call,
regardless of its arguments, fails with AlreadyCreated and leaves the
state unchanged; the status never leaves Active. -/
theorem single_creation
    (s : State) (t d : String) (n : Nat) (o1 o2 o3 o4 : String) (e now : Nat)
    (s' : State) (h : create_vote s t d n o1 o2 o3 o4 e now = Except.ok s') :
    s.vote_status = 0 ∧ s'.vote_status = 1 ∧
    ∀ s'', ReachableFrom s' s'' →
      s''.vote_status = 1 ∧
      ∀ t' d' n' p1 p2 p3 p4 e' now',
        applyCall s'' (Call.create t' d' n' p1 p2 p3 p4 e' now') =
          (s'', some VoteError.alreadyCreated) := by
  obtain ⟨hs0, _, _, _, rfl⟩ := create_vote_ok h
  refine ⟨hs0, rfl, ?_⟩
  intro s'' hr
  have h1 : s''.vote_status = 1 := (reachableFrom_active hr rfl).1
  refine ⟨h1, ?_⟩
  intro t' d' n' p1 p2 p3 p4 e' now'
  have hc : create_vote s'' t' d' n' p1 p2 p3 p4 e' now' =
      Except.error VoteError.alreadyCreated := by
    unfold create_vote
    rw [if_neg (by omega)]
  simp [applyCall, hc]

/-- Witness for C2: after the demo creation, a second creation with
different arguments is rejected with AlreadyCreated and changes nothing. -/
theorem single_creation_witness :
    applyCall demoS1 (Call.create "X" "Y" 3 "a" "b" "c" "" 999 5) =
      (demoS1, some VoteError.alreadyCreated) :=
  (((single_creation initialState "T" "D" 2 "A" "B" "" "" 100 0 demoS1
      rfl).2.2 demoS1 ReachableFrom.refl).2 "X" "Y" 3 "a" "b" "c" "" 999 5)

/-- C9: in any reachable state where the poll is not yet created,
endsAt is still 0, so every vote call fails at the very first check
with VotingEnded, never with a dedicated not-created error. -/
theorem no_vote_before_creation (s : State) (h : Reachable s)
    (h0 : s.vote_status = 0) (sender now option : Nat) :
    s.endsAt = 0 ∧ vote s sender now option = Except.error VoteError.votingEnded := by
  obtain ⟨_, hz, _, _, _⟩ := stateInv_reachable h
  obtain ⟨he, _, _⟩ := hz h0
  refine ⟨he, ?_⟩
  unfold vote
  rw [if_neg (by omega)]

/-- Witness for C9 at the initial state. -/
theorem no_vote_before_creation_witness :
    initialState.endsAt = 0 ∧
    vote initialState 7 12 1 = Except.error VoteError.votingEnded :=
  no_vote_before_creation initialState ReachableFrom.refl rfl 7 12 1

/-- C3: in any reachable state with an active poll, the voting window is
strict at both ends: a vote at exactly startsAt fails with
VotingNotStarted, a vote at exactly endsAt fails with VotingEnded, and a
vote strictly inside the window with a valid option by an opted-in
account that has not voted yet succeeds. -/
theorem window_strict (s : State) (h : Reachable s) (hA : s.vote_status = 1) :
    (∀ sender option,
      vote s sender s.startsAt option = Except.error VoteError.votingNotStarted) ∧
    (∀ sender option,
      vote s sender s.endsAt option = Except.error VoteError.votingEnded) ∧
    (∀ sender now option,
      s.startsAt < now → now < s.endsAt →
      1 ≤ option → option ≤ s.noOfOptions →
      sender ∈ s.opted → lookupVote s.localState sender = none →
      ∃ s', vote s sender now option = Except.ok s') := by
  obtain ⟨_, _, h1, _, _⟩ := stateInv_reachable h
  obtain ⟨hlt, hn2, hn4⟩ := h1 hA
  refine ⟨?_, ?_, ?_⟩
  · intro sender option
    unfold vote
    rw [if_pos hlt, if_neg (lt_irrefl s.startsAt)]
  · intro sender option
    unfold vote
    rw [if_neg (lt_irrefl s.endsAt)]
  · intro sender now option hs he hg hle hopt hnone
    have hnotSome : ¬ (lookupVote s.localState sender).isSome = true := by
      simp [hnone]
    have h4 : option = 1 ∨ option = 2 ∨ option = 3 ∨ option = 4 := by omega
    unfold vote
    rw [if_pos he, if_pos hs, if_pos ⟨hg, hle⟩, if_pos hopt, if_neg hnotSome]
    rcases h4 with rfl | rfl | rfl | rfl
    · exact ⟨_, rfl⟩
    · exact ⟨_, rfl⟩
    · exact ⟨_, rfl⟩
    · exact ⟨_, rfl⟩

/-- Witness for C3 at the demo state: votes at the exact bounds 0 and
100 are rejected, a vote at time 50 succeeds. -/
theorem window_strict_witness :
    vote demoS2 3 demoS2.startsAt 1 = Except.error VoteError.votingNotStarted ∧
    vote demoS2 3 demoS2.endsAt 1 = Except.error VoteError.votingEnded ∧
    ∃ s', vote demoS2 7 50 1 = Except.ok s' := by
  obtain ⟨w1, w2, w3⟩ := window_strict demoS2 demoS2_reachable rfl
  exact ⟨w1 3 1, w2 3 1,
    w3 7 50 1 (by decide) (by decide) (by decide) (by decide) (by decide) (by decide)⟩

/-- C4 counterexample: account 7 voted successfully (option 1 at time
50), yet a second vote call with option 5 at time 60 fails with
InvalidOption, not AlreadyVoted, because the option-range check runs
before the already-voted check. -/
theorem one_vote_counterexample :
    vote demoS2 7 50 1 = Except.ok demoS3 ∧
    vote demoS3 7 60 5 = Except.error VoteError.invalidOption ∧
    VoteError.invalidOption ≠ VoteError.alreadyVoted := by
  exact ⟨rfl, rfl, by decide⟩

/-- C4 amended: for any account, a second vote call made after that
account's first successful vote, with the timestamp strictly inside the
voting window and the option within 1..optionCount, fails with
AlreadyVoted, and the rejected call changes no state. -/
theorem one_vote_per_account
    (s : State) (sender now option : Nat) (s' : State)
    (h : vote s sender now option = Except.ok s')
    (s'' : State) (hr : ReachableFrom s' s'')
    (now' option' : Nat)
    (h1 : s''.startsAt < now') (h2 : now' < s''.endsAt)
    (h3 : 1 ≤ option') (h4 : option' ≤ s''.noOfOptions) :
    applyCall s'' (Call.vote sender option' now') =
      (s'', some VoteError.alreadyVoted) := by
  obtain ⟨_, _, _, _, hopt, _, hcases⟩ := vote_ok h
  have hv' : (lookupVote s'.localState sender).isSome = true := by
    rcases hcases with ⟨_, rfl⟩ | ⟨_, rfl⟩ | ⟨_, rfl⟩ | ⟨_, rfl⟩ <;>
      simp [recordVote, lookupVote]
  have ho' : sender ∈ s'.opted := by
    rcases hcases with ⟨_, rfl⟩ | ⟨_, rfl⟩ | ⟨_, rfl⟩ | ⟨_, rfl⟩ <;> exact hopt
  have hv'' := reachableFrom_voted hr sender hv'
  have ho'' := reachableFrom_opted hr sender ho'
  have hc : vote s'' sender now' option' = Except.error VoteError.alreadyVoted := by
    unfold vote
    rw [if_pos h2, if_pos h1, if_pos ⟨h3, h4⟩, if_pos ho'', if_pos hv'']
  simp [applyCall, hc]

/-- Witness for C4 amended: account 7, having voted at time 50, is
rejected with AlreadyVoted when voting option 2 at time 60, with the
state untouched. -/
theorem one_vote_per_account_witness :
    applyCall demoS3 (Call.vote 7 2 60) = (demoS3, some VoteError.alreadyVoted) :=
  one_vote_per_account demoS2 7 50 1 demoS3 rfl demoS3 ReachableFrom.refl 60 2
    (by decide) (by decide) (by decide) (by decide)

/-- C5: a successful create_vote stores every supplied field verbatim
(including option slots beyond optionCount), zeroes the four tallies,
sets startsAt to the current time, endsAt to the supplied value and the
status to Active, and startsAt < endsAt holds from creation onward,
both timestamps being immutable afterwards. -/
theorem create_vote_effects
    (s : State) (t d : String) (n : Nat) (o1 o2 o3 o4 : String) (e now : Nat)
    (s' : State) (h : create_vote s t d n o1 o2 o3 o4 e now = Except.ok s') :
    s'.title = t ∧ s'.description = d ∧ s'.noOfOptions = n ∧
    s'.option1 = o1 ∧ s'.option2 = o2 ∧ s'.option3 = o3 ∧ s'.option4 = o4 ∧
    s'.option1Votes = 0 ∧ s'.option2Votes = 0 ∧
    s'.option3Votes = 0 ∧ s'.option4Votes = 0 ∧
    s'.startsAt = now ∧ s'.endsAt = e ∧ s'.vote_status = 1 ∧
    ∀ s'', ReachableFrom s' s'' →
      s''.startsAt = now ∧ s''.endsAt = e ∧ s''.startsAt < s''.endsAt := by
  obtain ⟨_, _, _, hne, rfl⟩ := create_vote_ok h
  refine ⟨rfl, rfl, rfl, rfl, rfl, rfl, rfl, rfl, rfl, rfl, rfl, rfl, rfl, rfl, ?_⟩
  intro s'' hr
  obtain ⟨_, hs, he⟩ := reachableFrom_active hr rfl
  have hs' : s''.startsAt = now := by simpa using hs
  have he' : s''.endsAt = e := by simpa using he
  exact ⟨hs', he', by omega⟩

/-- Witness for C5 at the demo creation. -/
theorem create_vote_effects_witness :
    demoS1.title = "T" ∧ demoS1.noOfOptions = 2 ∧ demoS1.option3 = "" ∧
    demoS1.option1Votes = 0 ∧ demoS1.startsAt = 0 ∧ demoS1.endsAt = 100 ∧
    demoS1.vote_status = 1 ∧ demoS3.startsAt < demoS3.endsAt := by
  obtain ⟨ht, _, hn, _, _, ho3, _, hv1, _, _, _, hst, hen, hac, hall⟩ :=
    create_vote_effects initialState "T" "D" 2 "A" "B" "" "" 100 0 demoS1 rfl
  have h3 := hall demoS3
    (ReachableFrom.tail (Call.vote 7 1 50) (ReachableFrom.tail (Call.optIn 7) ReachableFrom.refl))
  exact ⟨ht, hn, ho3, hv1, hst, hen, hac, h3.2.2⟩

/-- C6: when no poll exists and the deadline is valid, create_vote with
optionCount 2..4 succeeds, while any optionCount outside 2..4 is
rejected with InvalidOptionCount and changes no state. -/
theorem option_count_bound
    (s : State) (t d : String) (o1 o2 o3 o4 : String) (e now : Nat)
    (h0 : s.vote_status = 0) (hd : now < e) :
    (∀ n, 2 ≤ n → n ≤ 4 →
      ∃ s', create_vote s t d n o1 o2 o3 o4 e now = Except.ok s') ∧
    (∀ n, n < 2 ∨ 4 < n →
      applyCall s (Call.create t d n o1 o2 o3 o4 e now) =
        (s, some VoteError.invalidOptionCount)) := by
  constructor
  · intro n hn2 hn4
    refine ⟨{ s with
        title := t, description := d, noOfOptions := n,
        option1 := o1, option2 := o2, option3 := o3, option4 := o4,
        option1Votes := 0, option2Votes := 0,
        option3Votes := 0, option4Votes := 0,
        startsAt := now, endsAt := e, vote_status := 1 }, ?_⟩
    unfold create_vote
    rw [if_pos h0, if_pos ⟨hn2, hn4⟩, if_pos hd]
  · intro n hn
    have hc : create_vote s t d n o1 o2 o3 o4 e now =
        Except.error VoteError.invalidOptionCount := by
      unfold create_vote
      rw [if_pos h0, if_neg (by omega)]
    simp [applyCall, hc]

/-- Witness for C6 at the initial state: three options succeed, five
options are rejected without any state change. -/
theorem option_count_bound_witness :
    (∃ s', create_vote initialState "T" "D" 3 "A" "B" "C" "" 100 0 = Except.ok s') ∧
    applyCall initialState (Call.create "T" "D" 5 "A" "B" "C" "" 100 0) =
      (initialState, some VoteError.invalidOptionCount) := by
  obtain ⟨hok, herr⟩ :=
    option_count_bound initialState "T" "D" "A" "B" "C" "" 100 0 rfl (by decide)
  exact ⟨hok 3 (by decide) (by decide), herr 5 (Or.inr (by decide))⟩

/-- C7: the defensive else-branch of the tally-increment chain in vote
is unreachable: in every reachable state, an option passing the range
precondition is one of 1..4, and no vote call ever ends in the
unconditional low-level abort. -/
theorem defensive_branch_unreachable
    (s : State) (h : Reachable s) (sender now option : Nat) :
    (1 ≤ option → option ≤ s.noOfOptions →
      (option = 1 ∨ option = 2 ∨ option = 3 ∨ option = 4)) ∧
    vote s sender now option ≠ Except.error VoteError.internalExit := by
  obtain ⟨hstat, h0, h1, _, _⟩ := stateInv_reachable h
  have hn4 : s.noOfOptions ≤ 4 := by
    rcases hstat with hz | ho
    · obtain ⟨_, hn, _⟩ := h0 hz
      omega
    · exact (h1 ho).2.2
  refine ⟨fun hge hle => by omega, ?_⟩
  intro hcontra
  unfold vote at hcontra
  split_ifs at hcontra with c1 c2 c3 c4 c5 c6 c7 c8 c9
  all_goals simp at hcontra
  all_goals omega

/-- Witness for C7 at the demo state with a valid option. -/
theorem defensive_branch_unreachable_witness :
    (1 ≤ 1 → 1 ≤ demoS2.noOfOptions → (1 = 1 ∨ 1 = 2 ∨ 1 = 3 ∨ 1 = 4)) ∧
    vote demoS2 7 50 1 ≠ Except.error VoteError.internalExit :=
  defensive_branch_unreachable demoS2 demoS2_reachable 7 50 1

/-- C8: opt_in is idempotent: when the caller's slot already exists it
changes nothing; repeating it has no effect beyond the first call; and
it never touches the local-state records, any poll field or any tally. -/
theorem opt_in_idempotent (s : State) (a : Nat) :
    (a ∈ s.opted → opt_in s a = s) ∧
    opt_in (opt_in s a) a = opt_in s a ∧
    (opt_in s a).localState = s.localState ∧
    (opt_in s a).title = s.title ∧
    (opt_in s a).description = s.description ∧
    (opt_in s a).noOfOptions = s.noOfOptions ∧
    (opt_in s a).option1 = s.option1 ∧
    (opt_in s a).option2 = s.option2 ∧
    (opt_in s a).option3 = s.option3 ∧
    (opt_in s a).option4 = s.option4 ∧
    (opt_in s a).option1Votes = s.option1Votes ∧
    (opt_in s a).option2Votes = s.option2Votes ∧
    (opt_in s a).option3Votes = s.option3Votes ∧
    (opt_in s a).option4Votes = s.option4Votes ∧
    (opt_in s a).startsAt = s.startsAt ∧
    (opt_in s a).endsAt = s.endsAt ∧
    (opt_in s a).vote_status = s.vote_status := by
  by_cases hmem : a ∈ s.opted
  · have hfix : opt_in s a = s := by
      unfold opt_in
      rw [if_pos hmem]
    rw [hfix]
    exact ⟨fun _ => rfl, hfix, rfl, rfl, rfl, rfl, rfl, rfl, rfl, rfl, rfl,
      rfl, rfl, rfl, rfl, rfl, rfl⟩
  · have hnew : opt_in s a = { s with opted := a :: s.opted } := by
      unfold opt_in
      rw [if_neg hmem]
    rw [hnew]
    refine ⟨fun hx => absurd hx hmem, ?_, rfl, rfl, rfl, rfl, rfl, rfl, rfl,
      rfl, rfl, rfl, rfl, rfl, rfl, rfl, rfl⟩
    unfold opt_in
    rw [if_pos (List.mem_cons_self a s.opted)]

/-- Witness for C8: account 7 is already opted in at the demo state, so
a second opt_in is a no-op. -/
theorem opt_in_idempotent_witness : opt_in demoS2 7 = demoS2 :=
  (opt_in_idempotent demoS2 7).1 (by decide)

/-- C10: a successful vote(option) call increments exactly the tally at
position option, records the caller's choice, and leaves the other
tallies, all poll metadata, the opted-in set and every other account's
record untouched. -/
theorem vote_frame (s : State) (sender now option : Nat) (s' : State)
    (h : vote s sender now option = Except.ok s') :
    tally s' option = tally s option + 1 ∧
    (∀ i, i ≠ option → tally s' i = tally s i) ∧
    lookupVote s'.localState sender = some option ∧
    (∀ a, a ≠ sender → lookupVote s'.localState a = lookupVote s.localState a) ∧
    s'.title = s.title ∧ s'.description = s.description ∧
    s'.noOfOptions = s.noOfOptions ∧
    s'.option1 = s.option1 ∧ s'.option2 = s.option2 ∧
    s'.option3 = s.option3 ∧ s'.option4 = s.option4 ∧
    s'.startsAt = s.startsAt ∧ s'.endsAt = s.endsAt ∧
    s'.vote_status = s.vote_status ∧ s'.opted = s.opted := by
  obtain ⟨_, _, _, _, _, _, hcases⟩ := vote_ok h
  rcases hcases with ⟨rfl, rfl⟩ | ⟨rfl, rfl⟩ | ⟨rfl, rfl⟩ | ⟨rfl, rfl⟩ <;>
    exact ⟨by simp [tally, recordVote],
      fun i hi => by simp [tally, recordVote, hi],
      by simp [recordVote, lookupVote],
      fun a ha => by simp [recordVote, lookupVote, ha],
      rfl, rfl, rfl, rfl, rfl, rfl, rfl, rfl, rfl, rfl, rfl⟩

/-- Witness for C10 at the demo vote of account 7. -/
theorem vote_frame_witness :
    tally demoS3 1 = tally demoS2 1 + 1 ∧
    tally demoS3 2 = tally demoS2 2 ∧
    lookupVote demoS3.localState 7 = some 1 ∧
    lookupVote demoS3.localState 8 = lookupVote demoS2.localState 8 ∧
    demoS3.endsAt = demoS2.endsAt := by
  obtain ⟨ha, hb, hc, hd, _, _, _, _, _, _, _, _, hen, _, _⟩ :=
    vote_frame demoS2 7 50 1 demoS3 rfl
  exact ⟨ha, hb 2 (by decide), hc, hd 8 (by decide), hen⟩

end Voting
